import Mathlib

/-!
# Response normalizer and forwarding relay

A shallow embedding of two functions of the chat front-end:

* `extractTextFromResponse` (`src/App.jsx`), which derives a display string from a
  JSON reply of unknown shape;
* `handler` (`api/agent.js`), which relays a browser request to the upstream webhook.

JSON values are a tagged union.  An object is the list of its own enumerable
properties in the order in which the engine enumerates them (`Object.values`,
`Object.entries`); a property read `data[k]` is a lookup in that list.
Strings are Lean strings; `.length` counts UTF-16 code units.
-/

namespace N8nUi

/-! ## JSON values -/

/-- A JSON value, as produced by `JSON.parse` / `res.json()`.  A number is a decimal
literal `m * 10 ^ e`. -/
inductive JSON where
  | null : JSON
  | bool (b : Bool) : JSON
  | num (m : Int) (e : Int) : JSON
  | str (s : String) : JSON
  | arr (items : List JSON) : JSON
  | obj (props : List (String × JSON)) : JSON

/-- JavaScript `WhiteSpace` and `LineTerminator` code points, the ones that
`String.prototype.trim` removes. -/
def isTrimChar (c : Char) : Bool :=
  c.val == 0x09 || c.val == 0x0A || c.val == 0x0B || c.val == 0x0C || c.val == 0x0D ||
  c.val == 0x20 || c.val == 0xA0 || c.val == 0x1680 ||
  (0x2000 ≤ c.val && c.val ≤ 0x200A) ||
  c.val == 0x2028 || c.val == 0x2029 || c.val == 0x202F || c.val == 0x205F ||
  c.val == 0x3000 || c.val == 0xFEFF

/-- The method `s.trim()`: strip leading and trailing whitespace. -/
def jsTrim (s : String) : String :=
  ⟨((s.data.dropWhile isTrimChar).reverse.dropWhile isTrimChar).reverse⟩

/-- The property `s.length`: the number of UTF-16 code units of `s`. -/
def jsLength (s : String) : Nat :=
  (s.data.map (fun c => if c.val < 0x10000 then 1 else 2)).sum

/-- The filter predicate of the array branch:
`typeof s === "string" && s.trim().length > 0`. -/
def hasText (s : String) : Bool :=
  decide (0 < jsLength (jsTrim s))

/-- Truthiness of a string, `if (s)`: a string is truthy unless it is empty. -/
def truthyStr (s : String) : Bool :=
  s != ""

/-- The method `parts.join(sep)`. -/
def jsJoin (sep : String) (parts : List String) : String :=
  sep.intercalate parts

/-- The constant `preferredKeys`. -/
def preferredKeys : List String :=
  ["message", "text", "content", "result", "data", "value"]

/-- The early-exit loop `for (...) { const s = ...; if (s) return s; }` over results
already computed: the first truthy one, or `none` when the loop runs to its end. -/
def firstTruthy : List String → Option String
  | [] => none
  | s :: rest => if truthyStr s then some s else firstTruthy rest

/-- The test `typeof data.k === "string"` on an object: the property value when it is
a string. -/
def stringField (props : List (String × JSON)) (k : String) : Option String :=
  match props.lookup k with
  | some (JSON.str s) => some s
  | _ => none

mutual

/-- The function `extractTextFromResponse(data)` of `src/App.jsx`. -/
def extractTextFromResponse : JSON → String
  -- `if (data == null) return "";`
  | .null => ""
  -- `if (typeof data === "string") return data;`
  | .str s => s
  -- numbers and booleans pass every guard and reach the final `return "";`
  | .bool _ => ""
  | .num _ _ => ""
  | .arr items =>
    -- an array has no property `reply` or `output`
    -- `data.map(extractTextFromResponse).filter(s => s.trim().length > 0)`
    let parts := (extractItems items).filter hasText
    -- `if (parts.length) return parts.join("\n\n");`
    if parts.length != 0 then jsJoin "\n\n" parts
    else
      -- `data[k]` is `undefined` for each preferred key: every `s` is `""`.
      -- Fallback: `for (const v of Object.values(data))`, the items in index order
      match scanItems items with
      | some s => s
      | none => ""
  | .obj props =>
    -- `if (typeof data.reply === "string") return data.reply;`
    match stringField props "reply" with
    | some s => s
    | none =>
    -- `if (typeof data.output === "string") return data.output;`
    match stringField props "output" with
    | some s => s
    | none =>
    -- `for (const k of preferredKeys) { ... if (s) return s; }`
    match firstTruthy (preferredKeys.map (fun k => extractKey k props)) with
    | some s => s
    | none =>
    -- `for (const v of Object.values(data)) { ... if (s) return s; }`
    match scanProps props with
    | some s => s
    | none => ""

/-- The call `data.map((item) => extractTextFromResponse(item))`. -/
def extractItems : List JSON → List String
  | [] => []
  | x :: rest => extractTextFromResponse x :: extractItems rest

/-- The call `extractTextFromResponse(data[k])` on an object with properties `props`:
`data[k]` is `undefined` when there is no such property, and the result is then `""`. -/
def extractKey (k : String) : List (String × JSON) → String
  | [] => ""
  | (k', v) :: rest => if k' == k then extractTextFromResponse v else extractKey k rest

/-- The fallback loop over `Object.values(data)` of an array. -/
def scanItems : List JSON → Option String
  | [] => none
  | x :: rest =>
    let s := extractTextFromResponse x
    if truthyStr s then some s else scanItems rest

/-- The fallback loop over `Object.values(data)` of an object. -/
def scanProps : List (String × JSON) → Option String
  | [] => none
  | (_, v) :: rest =>
    let s := extractTextFromResponse v
    if truthyStr s then some s else scanProps rest

end

/-- The call `extractTextFromResponse(v)` where `v` may be `undefined` (`none`). -/
def extractOpt : Option JSON → String
  | none => ""
  | some v => extractTextFromResponse v

/-! ## The normalizer with an explicit call-depth budget

The same function, transliterated with a budget for the depth of the call stack:
a call with budget `0` does not return, and every nested call runs with one unit
less.  It is used to state that the recursion is bounded by the nesting of the
input. -/

/-- The early-exit loop `for (const a of l) { const s = f(a); if (s) return s; }`
where a call `f(a)` may not return (`none`); `some none` means that the loop ran to
its end. -/
def firstTruthyM {α : Type} (f : α → Option String) : List α → Option (Option String)
  | [] => some none
  | a :: rest =>
    match f a with
    | none => none
    | some s => if truthyStr s then some (some s) else firstTruthyM f rest

/-- The function `extractTextFromResponse(data)` run with call-depth budget `n`;
`data` is `none` for `undefined`. -/
def extractDepth : Nat → Option JSON → Option String
  | 0, _ => none
  | _ + 1, none => some ""
  | _ + 1, some .null => some ""
  | _ + 1, some (.str s) => some s
  | _ + 1, some (.bool _) => some ""
  | _ + 1, some (.num _ _) => some ""
  | n + 1, some (.arr items) =>
    match items.mapM (fun x => extractDepth n (some x)) with
    | none => none
    | some rs =>
      let parts := rs.filter hasText
      if parts.length != 0 then some (jsJoin "\n\n" parts)
      else
        match firstTruthyM (fun _ => extractDepth n none) preferredKeys with
        | none => none
        | some (some s) => some s
        | some none =>
          match firstTruthyM (fun x => extractDepth n (some x)) items with
          | none => none
          | some (some s) => some s
          | some none => some ""
  | n + 1, some (.obj props) =>
    match stringField props "reply" with
    | some s => some s
    | none =>
    match stringField props "output" with
    | some s => some s
    | none =>
    match firstTruthyM (fun k => extractDepth n (props.lookup k)) preferredKeys with
    | none => none
    | some (some s) => some s
    | some none =>
      match firstTruthyM (fun p => extractDepth n (some p.2)) props with
      | none => none
      | some (some s) => some s
      | some none => some ""

mutual

/-- Nesting depth of a JSON value: `0` for a scalar, one more than the deepest
member for an array or an object. -/
def JSON.depth : JSON → Nat
  | .null => 0
  | .bool _ => 0
  | .num _ _ => 0
  | .str _ => 0
  | .arr items => depthItems items + 1
  | .obj props => depthProps props + 1

/-- Largest nesting depth among the items of an array. -/
def depthItems : List JSON → Nat
  | [] => 0
  | x :: rest => max x.depth (depthItems rest)

/-- Largest nesting depth among the property values of an object. -/
def depthProps : List (String × JSON) → Nat
  | [] => 0
  | (_, v) :: rest => max v.depth (depthProps rest)

end

/-- The string `"x"` wrapped in `n` one-item arrays: `"x"`, `["x"]`, `[["x"]]`, ... -/
def nestedArrays : Nat → JSON
  | 0 => .str "x"
  | n + 1 => .arr [nestedArrays n]

/-! ## The forwarding relay (`api/agent.js`) -/

/-- The expression `x || d` for a string `x` that may be `undefined`/`null` (`none`):
`d` replaces a missing and also an empty `x`. -/
def orDefault (x : Option String) (d : String) : String :=
  match x with
  | some s => if truthyStr s then s else d
  | none => d

/-- The constant `TARGET`, from the environment variable `VITE_N8N_URL`. -/
def TARGET (env : Option String) : String :=
  orDefault env "https://ashwindev.app.n8n.cloud/webhook/harbourcare-chat"

/-- Truthiness of a JSON value, as in `req.body && ...`. -/
def JSON.truthy : JSON → Bool
  | .null => false
  | .bool b => b
  | .num m _ => m != 0
  | .str s => truthyStr s
  | .arr _ => true
  | .obj _ => true

/-- The count `Object.keys(x).length` for a JSON value `x` other than `null`: the
properties of an object, the indices of an array, the code units of a string, and
nothing for a number or a boolean. -/
def JSON.keyCount : JSON → Nat
  | .null => 0
  | .bool _ => 0
  | .num _ _ => 0
  | .str s => jsLength s
  | .arr items => items.length
  | .obj props => props.length

/-- The inbound request: its method and `req.body`, the parsed JSON body, `none` when
the request has no body (`undefined`). -/
structure Req where
  method : String
  body : Option JSON

/-- What has become of the body of the response: nothing yet, ended without a body
(`res.end()`), ended with the text `JSON.stringify(v)` or with the text `s`, or
`aborted` when an exception left the handler before the response was ended, in which
case the handler sends no response. -/
inductive Body where
  | unsent : Body
  | ended : Body
  | json (v : JSON) : Body
  | text (s : String) : Body
  | aborted : Body

/-- The response object `res`: status code, header table and body.  Of the headers,
the table tracks the ones that the handler sets and `content-type`; the
`content-length` and `etag` headers that the runtime adds are not tracked. -/
structure Res where
  statusCode : Nat
  headers : List (String × String)
  body : Body

/-- A fresh response object. -/
def Res.fresh : Res :=
  { statusCode := 200, headers := [], body := Body.unsent }

/-- Header names are case-insensitive: the table is keyed by the lower-cased name. -/
def headerKey (name : String) : String :=
  ⟨name.data.map Char.toLower⟩

/-- The method `res.setHeader(name, value)`: set or replace one header. -/
def Res.setHeader (res : Res) (name value : String) : Res :=
  { res with
    headers := (headerKey name, value) :: res.headers.filter (fun h => h.1 != headerKey name) }

/-- The method `res.getHeader(name)`. -/
def Res.getHeader (res : Res) (name : String) : Option String :=
  res.headers.lookup (headerKey name)

/-- The method `res.removeHeader(name)`. -/
def Res.removeHeader (res : Res) (name : String) : Res :=
  { res with headers := res.headers.filter (fun h => h.1 != headerKey name) }

/-- The method `res.status(code)`. -/
def Res.status (res : Res) (code : Nat) : Res :=
  { res with statusCode := code }

/-- The method `res.end()`: finish with no body. -/
def Res.end_ (res : Res) : Res :=
  { res with body := Body.ended }

/-- An exception: an `Error` object with its `name` and `message`. -/
structure JSError where
  name : String
  message : String

/-! ### The response helpers of the serverless runtime

The methods `res.send` and `res.json` are not Node methods and not code of the
repository: the serverless runtime adds them to `res`.  They are embedded here as far
as status, `content-type` and body go.  `send` rewrites the `content-type` header with
the parameter `charset=utf-8`, through `parse` and `format` of the `content-type`
package, which raise a `TypeError` on a value that is not a media type; it drops the
header and the body for the statuses 204 and 304. -/

/-- The character class `[!#$%&'*+.^_`|~0-9A-Za-z-]` of a token. -/
def isTokenChar (c : Char) : Bool :=
  c.isAlphanum ||
  [0x21, 0x23, 0x24, 0x25, 0x26, 0x27, 0x2A, 0x2B, 0x2D, 0x2E, 0x5E, 0x5F, 0x60, 0x7C, 0x7E].contains
    c.toNat

/-- The test `TOKEN_REGEXP.test(s)`. -/
def isToken (cs : List Char) : Bool :=
  !cs.isEmpty && cs.all isTokenChar

/-- The test `TYPE_REGEXP.test(s)`: two tokens around one slash. -/
def isMediaType (cs : List Char) : Bool :=
  match cs.dropWhile (fun c => c != '/') with
  | _ :: sub => isToken (cs.takeWhile (fun c => c != '/')) && isToken sub
  | [] => false

/-- The class of a plain character inside a quoted string: `\u000b`, `\u0020`,
`\u0021`, `\u0023-\u005b`, `\u005d-\u007e`, `\u0080-\u00ff`. -/
def isQuotedChar (c : Char) : Bool :=
  c.toNat == 0x0B || c.toNat == 0x20 || c.toNat == 0x21 || (0x23 ≤ c.toNat && c.toNat ≤ 0x5B) ||
  (0x5D ≤ c.toNat && c.toNat ≤ 0x7E) || (0x80 ≤ c.toNat && c.toNat ≤ 0xFF)

/-- The class of a character after a backslash inside a quoted string:
`\u000b`, `\u0020-\u00ff`. -/
def isEscapableChar (c : Char) : Bool :=
  c.toNat == 0x0B || (0x20 ≤ c.toNat && c.toNat ≤ 0xFF)

/-- The class of `TEXT_REGEXP`: `\u000b`, `\u0020-\u007e`, `\u0080-\u00ff`. -/
def isTextChar (c : Char) : Bool :=
  c.toNat == 0x0B || (0x20 ≤ c.toNat && c.toNat ≤ 0x7E) || (0x80 ≤ c.toNat && c.toNat ≤ 0xFF)

/-- The rest of a quoted string after its opening quote: the unescaped content and what
follows the closing quote. -/
def matchQuoted : List Char → List Char → Option (List Char × List Char)
  | [], _ => none
  | c :: rest, acc =>
    if c.toNat == 0x22 then some (acc.reverse, rest)
    else if c.toNat == 0x5C then
      match rest with
      | e :: rest' => if isEscapableChar e then matchQuoted rest' (e :: acc) else none
      | [] => none
    else if isQuotedChar c then matchQuoted rest (c :: acc)
    else none

/-- The greedy ` *` of `PARAM_REGEXP`. -/
def skipSpaces (cs : List Char) : List Char :=
  cs.dropWhile (fun c => c == ' ')

/-- One match of `PARAM_REGEXP` (`; *token *= *(quoted-string|token) *`) at the head of
`cs`: the key, the value with quotes and escapes removed, and what follows the
match. -/
def matchParam (cs : List Char) : Option (List Char × List Char × List Char) :=
  match cs with
  | ';' :: r =>
    let r := skipSpaces r
    let key := r.takeWhile isTokenChar
    if key.isEmpty then none
    else
      match skipSpaces (r.dropWhile isTokenChar) with
      | '=' :: r =>
        let r := skipSpaces r
        match r with
        | [] => none
        | c :: q =>
          if c.toNat == 0x22 then
            match matchQuoted q [] with
            | some (value, r) => some (key, value, skipSpaces r)
            | none => none
          else
            let value := r.takeWhile isTokenChar
            if value.isEmpty then none
            else some (key, value, skipSpaces (r.dropWhile isTokenChar))
      | _ => none
  | _ => none

/-- The method `toLowerCase()` on a token. -/
def lowerAscii (cs : List Char) : String :=
  ⟨cs.map Char.toLower⟩

/-- The assignment `parameters[key] = value`.  The table is kept in the order of
`Object.keys(parameters).sort()`, in which `format` reads it. -/
def setParam (key value : String) : List (String × String) → List (String × String)
  | [] => [(key, value)]
  | (k, v) :: rest =>
    if key == k then (key, value) :: rest
    else if key < k then (key, value) :: (k, v) :: rest
    else (k, v) :: setParam key value rest

/-- The exception `new TypeError(message)`. -/
def typeError (message : String) : JSError :=
  { name := "TypeError", message := message }

/-- The parameter loop of `parse`: `PARAM_REGEXP` must match at every position up to
the end of the header.  The first argument bounds the number of matches. -/
def parseParams : Nat → List Char → List (String × String) →
    Except JSError (List (String × String))
  | _, [], acc => .ok acc
  | 0, _ :: _, _ => .error (typeError "invalid parameter format")
  | n + 1, c :: cs, acc =>
    match matchParam (c :: cs) with
    | none => .error (typeError "invalid parameter format")
    | some (key, value, rest) => parseParams n rest (setParam (lowerAscii key) ⟨value⟩ acc)

/-- The function `parse(header)` of the `content-type` package: lower-cased media type
and parameters. -/
def parseContentType (header : String) : Except JSError (String × List (String × String)) :=
  if header == "" then .error (typeError "argument string is required")
  else
    let type := jsTrim ⟨header.data.takeWhile (fun c => c != ';')⟩
    if !isMediaType type.data then .error (typeError "invalid media type")
    else
      let rest := header.data.dropWhile (fun c => c != ';')
      match parseParams rest.length rest [] with
      | .error e => .error e
      | .ok params => .ok (lowerAscii type.data, params)

/-- The function `qstring(val)`: a token as it is, another value quoted. -/
def qstring (val : String) : Except JSError String :=
  if isToken val.data then .ok val
  else if !val.data.isEmpty && !val.data.all isTextChar then
    .error (typeError "invalid parameter value")
  else
    .ok ⟨[Char.ofNat 0x22] ++
      val.data.flatMap (fun c =>
        if c.toNat == 0x5C || c.toNat == 0x22 then [Char.ofNat 0x5C, c] else [c]) ++
      [Char.ofNat 0x22]⟩

/-- The parameter loop of `format`, appending to `out`. -/
def formatParams : List (String × String) → String → Except JSError String
  | [], out => .ok out
  | (k, v) :: rest, out =>
    if !isToken k.data then .error (typeError "invalid parameter name")
    else
      match qstring v with
      | .error e => .error e
      | .ok q => formatParams rest (out ++ "; " ++ k ++ "=" ++ q)

/-- The function `format(obj)` of the `content-type` package. -/
def formatContentType (type : String) (params : List (String × String)) :
    Except JSError String :=
  if type == "" || !isMediaType type.data then .error (typeError "invalid type")
  else formatParams params type

/-- The helper `setCharset(type, charset)`: parse, set the parameter, format. -/
def setCharset (type charset : String) : Except JSError String :=
  match parseContentType type with
  | .error e => .error e
  | .ok (t, params) => formatContentType t (setParam "charset" charset params)

/-- The helper `send(req, res, chunk)` for a string `chunk`, given as the body it
leaves when the status allows one (`Body.text s` from `res.send(s)`, `Body.json v` from
`res.json(v)`).  The request method is not `HEAD`. -/
def Res.sendChunk (res : Res) (chunk : Body) : Except JSError Res :=
  -- `if (!res.getHeader('content-type')) res.setHeader('content-type', 'text/html');`
  let res :=
    match res.getHeader "content-type" with
    | some t => if truthyStr t then res else res.setHeader "content-type" "text/html"
    | none => res.setHeader "content-type" "text/html"
  -- `res.setHeader('content-type', setCharset(type, 'utf-8'));`
  match res.getHeader "content-type" with
  | none => .ok { res with body := chunk }
  | some type =>
    match setCharset type "utf-8" with
    | .error e => .error e
    | .ok served =>
      let res := res.setHeader "content-type" served
      -- `if (204 === res.statusCode || 304 === res.statusCode)`: strip headers and body
      if res.statusCode == 204 || res.statusCode == 304 then
        .ok { res.removeHeader "Content-Type" with body := Body.text "" }
      else
        .ok { res with body := chunk }

/-- The method `res.send(text)` for a string `text`. -/
def Res.send (res : Res) (text : String) : Except JSError Res :=
  res.sendChunk (Body.text text)

/-- The method `res.json(v)`: default the `content-type` header to
`application/json; charset=utf-8`, then `send(JSON.stringify(v))`. -/
def Res.json (res : Res) (v : JSON) : Except JSError Res :=
  let res :=
    match res.getHeader "content-type" with
    | some t =>
      if truthyStr t then res else res.setHeader "content-type" "application/json; charset=utf-8"
    | none => res.setHeader "content-type" "application/json; charset=utf-8"
  res.sendChunk (Body.json v)

/-- The end of a path on which no `catch` follows: the response that a helper has
ended, or the response object left `aborted` when the helper raised. -/
def Res.settle (res : Res) (result : Except JSError Res) : Res :=
  match result with
  | .ok done => done
  | .error _ => { res with body := Body.aborted }

/-- The function `setCors(res)`. -/
def setCors (res : Res) : Res :=
  ((res.setHeader "Access-Control-Allow-Origin" "*").setHeader
    "Access-Control-Allow-Headers" "content-type").setHeader
    "Access-Control-Allow-Methods" "POST, OPTIONS"

/-- One call `fetch(url, { method, headers, body: JSON.stringify(body) })`; `body` is
the JSON value that is serialised. -/
structure FetchCall where
  url : String
  method : String
  headers : List (String × String)
  body : JSON

/-- The outcome of the upstream call: `fetch` raises, or it resolves with a status
and an optional `content-type` header, after which `upstream.text()` raises or
resolves with the body text. -/
inductive Upstream where
  | fetchThrows (err : JSError) : Upstream
  | textThrows (status : Nat) (contentType : Option String) (err : JSError) : Upstream
  | replied (status : Nat) (contentType : Option String) (text : String) : Upstream

/-- The conversion `String(err)` of an `Error` object (`Error.prototype.toString`). -/
def JSError.toString (err : JSError) : String :=
  if err.name == "" then err.message
  else if err.message == "" then err.name
  else err.name ++ ": " ++ err.message

/-- The expression `err?.message || String(err)`. -/
def errorText (err : JSError) : String :=
  orDefault (some err.message) err.toString

/-- The value that is serialised as the upstream body:
`const body = req.body && Object.keys(req.body).length ? req.body : {};`
followed by `body || {}`. -/
def forwardedBody (reqBody : Option JSON) : JSON :=
  let body : JSON :=
    match reqBody with
    | none => .obj []
    | some b => if b.truthy && b.keyCount != 0 then b else .obj []
  if body.truthy then body else .obj []

/-- The `catch` block: `res.status(502).json({ error: "Upstream error", message })`.
An exception raised here leaves the handler. -/
def upstreamError (res : Res) (err : JSError) : Res :=
  (res.status 502).settle
    ((res.status 502).json
      (.obj [("error", .str "Upstream error"), ("message", .str (errorText err))]))

/-- The function `handler(req, res)` of `api/agent.js`, for the value `env` of
`VITE_N8N_URL` and a `fetch` that maps each call to its outcome.  It returns the
response together with the list of calls made to `fetch`. -/
def handler (env : Option String) (fetch : FetchCall → Upstream) (req : Req) :
    Res × List FetchCall :=
  let res := setCors Res.fresh
  if req.method == "OPTIONS" then
    ((res.status 200).end_, [])
  else if req.method != "POST" then
    ((res.status 405).settle
      ((res.status 405).json (.obj [("error", .str "Method Not Allowed")])), [])
  else
    let call : FetchCall :=
      { url := TARGET env
        method := "POST"
        headers := [("content-type", "application/json")]
        body := forwardedBody req.body }
    match fetch call with
    | .fetchThrows err => (upstreamError res err, [call])
    | .textThrows _ _ err => (upstreamError res err, [call])
    | .replied status contentType text =>
      let contentType := orDefault contentType "application/json"
      let res := (res.status status).setHeader "content-type" contentType
      match res.send text with
      | .ok done => (done, [call])
      | .error err => (upstreamError res err, [call])

/-! ## Facts about the normalizer -/

theorem extractItems_eq_map (items : List JSON) :
    extractItems items = items.map extractTextFromResponse := by
  induction items with
  | nil => simp [extractItems]
  | cons x rest ih => simp [extractItems, ih]

theorem extractKey_eq_lookup (k : String) (props : List (String × JSON)) :
    extractKey k props = extractOpt (props.lookup k) := by
  induction props with
  | nil => simp [extractKey, extractOpt]
  | cons p rest ih =>
    obtain ⟨k', v⟩ := p
    by_cases h : k' = k
    · subst h
      simp [extractKey, List.lookup, extractOpt]
    · have h' : (k == k') = false := by
        simpa using fun e : k = k' => h e.symm
      simp [extractKey, List.lookup, h, h', ih]

theorem firstTruthy_eq_find (l : List String) :
    firstTruthy l = l.find? (fun s => decide (s ≠ "")) := by
  induction l with
  | nil => rfl
  | cons s rest ih =>
    by_cases h : s = ""
    · simp [firstTruthy, truthyStr, h, ih]
    · simp [firstTruthy, truthyStr, h]

theorem scanItems_eq_find (items : List JSON) :
    scanItems items = (items.map extractTextFromResponse).find? (fun s => decide (s ≠ "")) := by
  induction items with
  | nil => simp [scanItems]
  | cons x rest ih =>
    by_cases h : extractTextFromResponse x = ""
    · simp [scanItems, truthyStr, h, ih]
    · simp [scanItems, truthyStr, h]

theorem scanProps_eq_find (props : List (String × JSON)) :
    scanProps props =
      (props.map (fun p => extractTextFromResponse p.2)).find? (fun s => decide (s ≠ "")) := by
  induction props with
  | nil => simp [scanProps]
  | cons p rest ih =>
    obtain ⟨k, v⟩ := p
    by_cases h : extractTextFromResponse v = ""
    · simp [scanProps, truthyStr, h, ih]
    · simp [scanProps, truthyStr, h]

theorem stringField_eq_some (props : List (String × JSON)) (k s : String)
    (h : props.lookup k = some (.str s)) : stringField props k = some s := by
  simp [stringField, h]

theorem stringField_eq_none (props : List (String × JSON)) (k : String)
    (h : ∀ s, props.lookup k ≠ some (.str s)) : stringField props k = none := by
  unfold stringField
  split
  · next s hs => exact absurd hs (h s)
  · rfl

theorem firstTruthy_of_mem_or_empty (t : String) (l : List String)
    (h : ∀ s ∈ l, s = t ∨ s = "") : firstTruthy l = none ∨ firstTruthy l = some t := by
  induction l with
  | nil => exact Or.inl rfl
  | cons s rest ih =>
    have hrest := ih (fun x hx => h x (List.mem_cons_of_mem _ hx))
    rcases h s (List.mem_cons_self _ _) with hs | hs
    · subst hs
      by_cases hs' : s = ""
      · simpa [firstTruthy, truthyStr, hs'] using hrest
      · simp [firstTruthy, truthyStr, hs']
    · subst hs
      simpa [firstTruthy, truthyStr] using hrest

theorem jsJoin_singleton (sep s : String) : jsJoin sep [s] = s := by
  simp [jsJoin, String.intercalate, String.intercalate.go]

/-! ## The claims about the normalizer -/

/-- C2: an object with a string-valued `reply` normalizes to that string whatever else
it contains; one without a string-valued `reply` but with a string-valued `output`
normalizes to the `output` string. -/
theorem reply_then_output_priority (props : List (String × JSON)) (s : String)
    (h : props.lookup "reply" = some (.str s) ∨
      ((∀ r, props.lookup "reply" ≠ some (.str r)) ∧ props.lookup "output" = some (.str s))) :
    extractTextFromResponse (.obj props) = s := by
  rcases h with h | ⟨hr, ho⟩
  · simp [extractTextFromResponse, stringField_eq_some props "reply" s h]
  · simp [extractTextFromResponse, stringField_eq_none props "reply" hr,
      stringField_eq_some props "output" s ho]

/-- C2, on `{output: "hi", reply: "bye"}` (reply wins) and on
`{message: "m", output: "hi"}` (output wins over a preferred key). -/
theorem reply_then_output_priority_witness :
    extractTextFromResponse (.obj [("output", .str "hi"), ("reply", .str "bye")]) = "bye" ∧
    extractTextFromResponse (.obj [("message", .str "m"), ("output", .str "hi")]) = "hi" :=
  ⟨reply_then_output_priority _ _ (Or.inl rfl),
   reply_then_output_priority _ _ (Or.inr ⟨fun _ h => by simp [List.lookup] at h, rfl⟩)⟩

/-- C3: when at least one item of an array normalizes to a string with text left
after trimming, the array normalizes to the results of its items, in order, without
those that are empty or whitespace-only, joined with a blank line; the kept results
are not trimmed. -/
theorem array_joins_results_with_text (items : List JSON)
    (h : ∃ x ∈ items, hasText (extractTextFromResponse x) = true) :
    extractTextFromResponse (.arr items) =
      "\n\n".intercalate ((items.map extractTextFromResponse).filter hasText) := by
  obtain ⟨x, hx, hxt⟩ := h
  have hmem : extractTextFromResponse x ∈ (items.map extractTextFromResponse).filter hasText :=
    List.mem_filter.mpr ⟨List.mem_map_of_mem _ hx, hxt⟩
  have hne : (items.map extractTextFromResponse).filter hasText ≠ [] :=
    List.ne_nil_of_mem hmem
  simp only [extractTextFromResponse, extractItems_eq_map, jsJoin]
  have hlen : (((items.map extractTextFromResponse).filter hasText).length != 0) = true := by
    simpa using hne
  rw [if_pos hlen]

/-- C3, on `[{output: "a"}, {output: ""}, {output: " b"}]`. -/
theorem array_joins_results_with_text_witness :
    extractTextFromResponse
      (.arr [.obj [("output", .str "a")], .obj [("output", .str "")], .obj [("output", .str " b")]])
      = "a\n\n b" :=
  array_joins_results_with_text _ ⟨.obj [("output", .str "a")], by simp, by decide⟩

/-- C4: an object without a string-valued `reply` or `output` normalizes to the first
non-empty string among the results for `message`, `text`, `content`, `result`,
`data`, `value` (an absent key giving `""`) followed by the results for all its
values in enumeration order, and to `""` when there is none. -/
theorem object_first_nonempty_candidate (props : List (String × JSON))
    (hr : ∀ s, props.lookup "reply" ≠ some (.str s))
    (ho : ∀ s, props.lookup "output" ≠ some (.str s)) :
    extractTextFromResponse (.obj props) =
      (((["message", "text", "content", "result", "data", "value"].map
            (fun k => extractOpt (props.lookup k)))
          ++ props.map (fun p => extractTextFromResponse p.2)).find?
        (fun s => decide (s ≠ ""))).getD "" := by
  simp only [extractTextFromResponse, stringField_eq_none props "reply" hr,
    stringField_eq_none props "output" ho, firstTruthy_eq_find, scanProps_eq_find,
    preferredKeys, extractKey_eq_lookup, List.find?_append]
  cases hp : List.find? (fun s => decide (s ≠ ""))
      (["message", "text", "content", "result", "data", "value"].map
        (fun k => extractOpt (props.lookup k))) with
  | some s => simp
  | none =>
    cases hv : List.find? (fun s => decide (s ≠ ""))
        (props.map (fun p => extractTextFromResponse p.2)) with
    | some s => simp
    | none => simp

/-- C4, on `{a: 1, b: "hello", message: {text: "deep"}}`: the preferred key wins over
the keys enumerated before it. -/
theorem object_first_nonempty_candidate_witness :
    extractTextFromResponse
      (.obj [("a", .num 1 0), ("b", .str "hello"), ("message", .obj [("text", .str "deep")])])
      = "deep" :=
  (object_first_nonempty_candidate _ (fun _ h => by simp [List.lookup] at h)
    (fun _ h => by simp [List.lookup] at h)).trans (by decide)

/-- C5: the array `[" "]` has no item that normalizes to a string with text left
after trimming, and still normalizes to `" "`, not to the empty string. -/
theorem whitespace_only_array_not_empty :
    (∀ x ∈ [JSON.str " "], hasText (extractTextFromResponse x) = false) ∧
    extractTextFromResponse (.arr [.str " "]) = " " ∧
    extractTextFromResponse (.arr [.str " "]) ≠ "" := by
  refine ⟨?_, ?_, ?_⟩
  · intro x hx
    rw [List.mem_singleton] at hx
    subst hx
    decide
  · decide
  · decide

/-- C5, amended: an array in which no item normalizes to a string with text left after
trimming normalizes to the first item result that is a non-empty string, which is
then whitespace-only, and to the empty string when every item normalizes to the
empty string. -/
theorem array_without_text_first_nonempty (items : List JSON)
    (h : ∀ x ∈ items, hasText (extractTextFromResponse x) = false) :
    extractTextFromResponse (.arr items) =
        ((items.map extractTextFromResponse).find? (fun s => decide (s ≠ ""))).getD "" ∧
    ((∀ x ∈ items, extractTextFromResponse x = "") →
      extractTextFromResponse (.arr items) = "") := by
  have hfilter : (items.map extractTextFromResponse).filter hasText = [] := by
    rw [List.filter_eq_nil_iff]
    intro s hs
    obtain ⟨x, hx, rfl⟩ := List.mem_map.mp hs
    simp [h x hx]
  have hmain : extractTextFromResponse (.arr items) =
      ((items.map extractTextFromResponse).find? (fun s => decide (s ≠ ""))).getD "" := by
    simp only [extractTextFromResponse, extractItems_eq_map, hfilter, scanItems_eq_find]
    cases List.find? (fun s => decide (s ≠ "")) (items.map extractTextFromResponse) <;> rfl
  refine ⟨hmain, fun hall => ?_⟩
  rw [hmain]
  have hnone : List.find? (fun s => decide (s ≠ "")) (items.map extractTextFromResponse)
      = none := by
    rw [List.find?_eq_none]
    intro s hs
    obtain ⟨x, hx, rfl⟩ := List.mem_map.mp hs
    simp [hall x hx]
  rw [hnone]
  rfl

/-- C5 amended, on `[1, "", " ", "\t"]`: the result is `" "`. -/
theorem array_without_text_first_nonempty_witness :
    extractTextFromResponse (.arr [.num 1 0, .str "", .str " ", .str "\t"]) = " " :=
  ((array_without_text_first_nonempty [.num 1 0, .str "", .str " ", .str "\t"]
    (by decide)).1).trans (by decide)

/-- C10: wrapping a value in a one-key object or in a one-item array does not change
what it normalizes to. -/
theorem single_child_wrapper_transparent (k : String) (v : JSON) :
    extractTextFromResponse (.obj [(k, v)]) = extractTextFromResponse v ∧
    extractTextFromResponse (.arr [v]) = extractTextFromResponse v := by
  constructor
  · have hscan : (match scanProps [(k, v)] with
        | some s => s
        | none => "") = extractTextFromResponse v := by
      by_cases hv : extractTextFromResponse v = ""
      · simp [scanProps, truthyStr, hv]
      · simp [scanProps, truthyStr, hv]
    have hpref : (match firstTruthy (preferredKeys.map (fun k' => extractKey k' [(k, v)])) with
        | some s => s
        | none =>
          match scanProps [(k, v)] with
          | some s => s
          | none => "") = extractTextFromResponse v := by
      have hall : ∀ s ∈ preferredKeys.map (fun k' => extractKey k' [(k, v)]),
          s = extractTextFromResponse v ∨ s = "" := by
        intro s hs
        obtain ⟨k', -, rfl⟩ := List.mem_map.mp hs
        by_cases hk : (k == k') = true
        · left
          simp [extractKey, hk]
        · right
          simp [extractKey, hk]
      rcases firstTruthy_of_mem_or_empty _ _ hall with h | h
      · rw [h]
        exact hscan
      · rw [h]
    have hout : (match stringField [(k, v)] "output" with
        | some s => s
        | none =>
          match firstTruthy (preferredKeys.map (fun k' => extractKey k' [(k, v)])) with
          | some s => s
          | none =>
            match scanProps [(k, v)] with
            | some s => s
            | none => "") = extractTextFromResponse v := by
      cases hf : stringField [(k, v)] "output" with
      | none => exact hpref
      | some s =>
        simp only [stringField, List.lookup] at hf
        split at hf
        · next t ht =>
          split at ht
          · injection ht with ht
            injection hf with hf
            subst ht
            subst hf
            simp [extractTextFromResponse]
          · simp at ht
        · simp at hf
    rw [extractTextFromResponse]
    cases hf : stringField [(k, v)] "reply" with
    | none => exact hout
    | some s =>
      simp only [stringField, List.lookup] at hf
      split at hf
      · next t ht =>
        split at ht
        · injection ht with ht
          injection hf with hf
          subst ht
          subst hf
          simp [extractTextFromResponse]
        · simp at ht
      · simp at hf
  · rw [extractTextFromResponse]
    simp only [extractItems]
    by_cases ht : hasText (extractTextFromResponse v) = true
    · simp [List.filter, ht, jsJoin_singleton]
    · have ht' : hasText (extractTextFromResponse v) = false := by simpa using ht
      simp only [List.filter, ht', scanItems]
      by_cases hv : extractTextFromResponse v = ""
      · simp [truthyStr, hv]
      · simp [truthyStr, hv]

/-! ## Bounded call depth -/

theorem depth_le_depthItems (items : List JSON) (x : JSON) (h : x ∈ items) :
    x.depth ≤ depthItems items := by
  induction items with
  | nil => cases h
  | cons y rest ih =>
    rw [depthItems]
    rcases List.mem_cons.mp h with h | h
    · subst h
      exact le_max_left _ _
    · exact le_trans (ih h) (le_max_right _ _)

theorem depth_le_depthProps (props : List (String × JSON)) (p : String × JSON)
    (h : p ∈ props) : p.2.depth ≤ depthProps props := by
  induction props with
  | nil => cases h
  | cons q rest ih =>
    obtain ⟨k, v⟩ := q
    rw [depthProps]
    rcases List.mem_cons.mp h with h | h
    · subst h
      exact le_max_left _ _
    · exact le_trans (ih h) (le_max_right _ _)

theorem depth_le_depthProps_of_lookup (props : List (String × JSON)) (k : String) (v : JSON)
    (h : props.lookup k = some v) : v.depth ≤ depthProps props := by
  induction props with
  | nil => simp at h
  | cons q rest ih =>
    obtain ⟨k', w⟩ := q
    rw [depthProps]
    rw [List.lookup] at h
    split at h
    · injection h with h
      subst h
      exact le_max_left _ _
    · exact le_trans (ih h) (le_max_right _ _)

theorem mapM_eq_some_map {α β : Type} (f : α → Option β) (g : α → β) (l : List α)
    (h : ∀ x ∈ l, f x = some (g x)) : l.mapM f = some (l.map g) := by
  induction l with
  | nil => rfl
  | cons a rest ih =>
    rw [List.mapM_cons, h a (List.mem_cons_self _ _),
      ih (fun x hx => h x (List.mem_cons_of_mem _ hx))]
    rfl

theorem firstTruthyM_eq {α : Type} (f : α → Option String) (g : α → String) (l : List α)
    (h : ∀ x ∈ l, f x = some (g x)) : firstTruthyM f l = some (firstTruthy (l.map g)) := by
  induction l with
  | nil => rfl
  | cons a rest ih =>
    simp only [firstTruthyM, h a (List.mem_cons_self _ _), List.map_cons, firstTruthy]
    by_cases ht : truthyStr (g a) = true
    · simp [ht]
    · simp [ht, ih (fun x hx => h x (List.mem_cons_of_mem _ hx))]

theorem scanItems_eq_firstTruthy (items : List JSON) :
    scanItems items = firstTruthy (items.map extractTextFromResponse) := by
  rw [scanItems_eq_find, firstTruthy_eq_find]

theorem scanProps_eq_firstTruthy (props : List (String × JSON)) :
    scanProps props = firstTruthy (props.map (fun p => extractTextFromResponse p.2)) := by
  rw [scanProps_eq_find, firstTruthy_eq_find]

theorem extractDepth_undefined (n : Nat) : extractDepth (n + 1) none = some "" := by
  simp [extractDepth]

theorem extractDepth_eq (n : Nat) : ∀ v : JSON, v.depth + 2 ≤ n →
    extractDepth n (some v) = some (extractTextFromResponse v) := by
  induction n with
  | zero => intro v h; omega
  | succ n ih =>
    intro v h
    cases v with
    | null => simp [extractDepth, extractTextFromResponse]
    | bool b => simp [extractDepth, extractTextFromResponse]
    | num m e => simp [extractDepth, extractTextFromResponse]
    | str s => simp [extractDepth, extractTextFromResponse]
    | arr items =>
      rw [JSON.depth] at h
      obtain ⟨m, rfl⟩ : ∃ m, n = m + 1 := ⟨n - 1, by omega⟩
      have hitems : ∀ x ∈ items,
          extractDepth (m + 1) (some x) = some (extractTextFromResponse x) := by
        intro x hx
        have := depth_le_depthItems items x hx
        exact ih x (by omega)
      have hpref : firstTruthyM (fun _ : String => extractDepth (m + 1) none) preferredKeys
          = some none := by
        rw [firstTruthyM_eq _ (fun _ => "") _ (fun _ _ => extractDepth_undefined m)]
        rfl
      rw [extractDepth, extractTextFromResponse,
        mapM_eq_some_map _ extractTextFromResponse items hitems, hpref,
        firstTruthyM_eq _ extractTextFromResponse items hitems,
        extractItems_eq_map, scanItems_eq_firstTruthy]
      simp only []
      split
      · rfl
      · cases firstTruthy (items.map extractTextFromResponse) <;> rfl
    | obj props =>
      rw [JSON.depth] at h
      obtain ⟨m, rfl⟩ : ∃ m, n = m + 1 := ⟨n - 1, by omega⟩
      have hkeys : ∀ k ∈ preferredKeys,
          extractDepth (m + 1) (props.lookup k) = some (extractKey k props) := by
        intro k _
        rw [extractKey_eq_lookup]
        cases hl : props.lookup k with
        | none => exact extractDepth_undefined m
        | some w =>
          have := depth_le_depthProps_of_lookup props k w hl
          exact ih w (by omega)
      have hvals : ∀ p ∈ props,
          extractDepth (m + 1) (some p.2) = some (extractTextFromResponse p.2) := by
        intro p hp
        have := depth_le_depthProps props p hp
        exact ih p.2 (by omega)
      rw [extractDepth, extractTextFromResponse,
        firstTruthyM_eq _ (fun k => extractKey k props) preferredKeys hkeys,
        firstTruthyM_eq _ (fun p => extractTextFromResponse p.2) props hvals,
        scanProps_eq_firstTruthy]
      cases stringField props "reply" with
      | some s => rfl
      | none =>
        cases stringField props "output" with
        | some s => rfl
        | none =>
          cases firstTruthy (preferredKeys.map (fun k => extractKey k props)) with
          | some s => rfl
          | none =>
            cases firstTruthy (props.map (fun p => extractTextFromResponse p.2)) <;> rfl

theorem extractDepth_nestedArrays (n : Nat) :
    extractDepth n (some (nestedArrays n)) = none := by
  induction n with
  | zero => rfl
  | succ n ih =>
    rw [nestedArrays, extractDepth, List.mapM_cons, ih]
    rfl

theorem depth_nestedArrays (n : Nat) : (nestedArrays n).depth = n := by
  induction n with
  | zero => rfl
  | succ n ih => simp [nestedArrays, JSON.depth, depthItems, ih]

/-- C1, as stated, fails: on an engine whose call stack holds 5000 nested calls of the
function, the normalizer does not return on the value made of 5000 nested one-item
arrays around a string; the recursion has no depth guard. -/
theorem deep_nesting_exhausts_call_depth :
    extractDepth 5000 (some (nestedArrays 5000)) = none ∧ (nestedArrays 5000).depth = 5000 :=
  ⟨extractDepth_nestedArrays 5000, depth_nestedArrays 5000⟩

/-- C1, amended: for every JSON value whose nesting depth plus two is at most the
number `limit` of nested calls that the call stack holds, the normalizer returns, and
returns the string that the total function `extractTextFromResponse` gives; `null`,
the empty object and the empty array give the empty string. -/
theorem extract_returns_within_call_depth (limit : Nat) (v : JSON)
    (h : v.depth + 2 ≤ limit) :
    extractDepth limit (some v) = some (extractTextFromResponse v) ∧
    extractTextFromResponse .null = "" ∧
    extractTextFromResponse (.obj []) = "" ∧
    extractTextFromResponse (.arr []) = "" :=
  ⟨extractDepth_eq limit v h, by decide, by decide, by decide⟩

/-- C1 amended, on `[{output: "a"}, [], {}, null]` with room for four nested calls. -/
theorem extract_returns_within_call_depth_witness :
    extractDepth 4 (some (.arr [.obj [("output", .str "a")], .arr [], .obj [], .null])) =
      some "a" :=
  (extract_returns_within_call_depth 4
    (.arr [.obj [("output", .str "a")], .arr [], .obj [], .null]) (by decide)).1

/-! ## Facts about the header table and the response helpers -/

theorem lookup_filter_ne (k k' : String) (l : List (String × String)) (h : k ≠ k') :
    (l.filter (fun p => p.1 != k')).lookup k = l.lookup k := by
  induction l with
  | nil => rfl
  | cons p rest ih =>
    obtain ⟨a, b⟩ := p
    by_cases ha : a = k'
    · subst ha
      have hk : (k == a) = false := by simpa using h
      simp [List.filter, List.lookup, hk, ih]
    · have ha' : (a != k') = true := by simpa using ha
      simp only [List.filter, ha', List.lookup]
      split
      · rfl
      · exact ih

theorem lookup_filter_self (k : String) (l : List (String × String)) :
    (l.filter (fun p => p.1 != k)).lookup k = none := by
  induction l with
  | nil => rfl
  | cons p rest ih =>
    obtain ⟨a, b⟩ := p
    by_cases ha : a = k
    · subst ha
      simp [List.filter, ih]
    · have ha' : (a != k) = true := by simpa using ha
      have hk : (k == a) = false := by simpa using fun e : k = a => ha e.symm
      simp [List.filter, ha', List.lookup, hk, ih]

theorem getHeader_setHeader_ne (res : Res) (k k' v : String) (h : headerKey k ≠ headerKey k') :
    (res.setHeader k' v).getHeader k = res.getHeader k := by
  have hk : (headerKey k == headerKey k') = false := by simpa using h
  simp [Res.getHeader, Res.setHeader, List.lookup, hk, lookup_filter_ne _ _ _ h]

theorem getHeader_setHeader_self (res : Res) (k v : String) :
    (res.setHeader k v).getHeader k = some v := by
  simp [Res.getHeader, Res.setHeader, List.lookup]

theorem getHeader_removeHeader_ne (res : Res) (k k' : String)
    (h : headerKey k ≠ headerKey k') :
    (res.removeHeader k').getHeader k = res.getHeader k := by
  simp [Res.getHeader, Res.removeHeader, lookup_filter_ne _ _ _ h]

theorem getHeader_removeHeader_self (res : Res) (k : String) :
    (res.removeHeader k).getHeader k = none := by
  simp [Res.getHeader, Res.removeHeader, lookup_filter_self]

theorem sendChunk_of_contentType (res : Res) (chunk : Body) (c : String)
    (hget : res.getHeader "content-type" = some c) (hc : c ≠ "") :
    res.sendChunk chunk =
      match setCharset c "utf-8" with
      | .error e => .error e
      | .ok served =>
        if res.statusCode == 204 || res.statusCode == 304 then
          .ok { (res.setHeader "content-type" served).removeHeader "Content-Type" with
                body := Body.text "" }
        else
          .ok { res.setHeader "content-type" served with body := chunk } := by
  have ht : truthyStr c = true := by simpa [truthyStr] using hc
  simp only [Res.sendChunk, hget, ht, if_true]
  cases setCharset c "utf-8" <;> rfl

theorem sendChunk_getHeader (res done : Res) (chunk : Body) (k : String)
    (h : res.sendChunk chunk = .ok done) (hk : headerKey k ≠ headerKey "content-type") :
    done.getHeader k = res.getHeader k := by
  have hk' : headerKey k ≠ headerKey "Content-Type" := hk
  unfold Res.sendChunk at h
  simp only [] at h
  split at h
  · injection h with h
    subst h
    split
    · split <;> first | rfl | exact getHeader_setHeader_ne _ _ _ _ hk
    · exact getHeader_setHeader_ne _ _ _ _ hk
  · split at h
    · cases h
    · have hbase : ∀ r : Res,
          r = (match res.getHeader "content-type" with
            | some t => if truthyStr t = true then res else res.setHeader "content-type" "text/html"
            | none => res.setHeader "content-type" "text/html") →
          r.getHeader k = res.getHeader k := by
        intro r hr
        subst hr
        split
        · split <;> first | rfl | exact getHeader_setHeader_ne _ _ _ _ hk
        · exact getHeader_setHeader_ne _ _ _ _ hk
      split at h
      · injection h with h
        subst h
        show (Res.removeHeader _ "Content-Type").getHeader k = _
        rw [getHeader_removeHeader_ne _ _ _ hk', getHeader_setHeader_ne _ _ _ _ hk]
        exact hbase _ rfl
      · injection h with h
        subst h
        show (Res.setHeader _ "content-type" _).getHeader k = _
        rw [getHeader_setHeader_ne _ _ _ _ hk]
        exact hbase _ rfl

theorem settle_json_getHeader (res : Res) (v : JSON) (k : String)
    (hk : headerKey k ≠ headerKey "content-type") :
    (res.settle (res.json v)).getHeader k = res.getHeader k := by
  cases h : res.json v with
  | error e => rfl
  | ok done =>
    simp only [Res.settle]
    unfold Res.json at h
    rw [sendChunk_getHeader _ _ _ _ h hk]
    split
    · split <;> first | rfl | exact getHeader_setHeader_ne _ _ _ _ hk
    · exact getHeader_setHeader_ne _ _ _ _ hk

theorem upstreamError_getHeader (res : Res) (err : JSError) (k : String)
    (hk : headerKey k ≠ headerKey "content-type") :
    (upstreamError res err).getHeader k = res.getHeader k := by
  unfold upstreamError
  rw [settle_json_getHeader _ _ _ hk]
  rfl

theorem handler_getHeader (env : Option String) (fetch : FetchCall → Upstream) (req : Req)
    (k : String) (hk : headerKey k ≠ headerKey "content-type") :
    (handler env fetch req).1.getHeader k = (setCors Res.fresh).getHeader k := by
  unfold handler
  simp only []
  split
  · rfl
  · split
    · rw [settle_json_getHeader _ _ _ hk]
      rfl
    · split
      · exact upstreamError_getHeader _ _ _ hk
      · exact upstreamError_getHeader _ _ _ hk
      · split
        · next done hsend =>
          show done.getHeader k = _
          rw [sendChunk_getHeader _ _ _ _ hsend hk, getHeader_setHeader_ne _ _ _ _ hk]
          rfl
        · rw [upstreamError_getHeader _ _ _ hk, getHeader_setHeader_ne _ _ _ _ hk]
          rfl

/-! ## The claims about the relay -/

theorem jsLength_eq_zero_iff (s : String) : jsLength s = 0 ↔ s = "" := by
  obtain ⟨l⟩ := s
  cases l with
  | nil => simp [jsLength]
  | cons c rest =>
    constructor
    · intro h
      simp only [jsLength, List.map_cons, List.sum_cons] at h
      split at h <;> omega
    · intro h
      have := congrArg String.data h
      simp at this

theorem forwardedBody_cases (body : Option JSON) :
    forwardedBody body =
      match body with
      | some (.str s) => if s = "" then .obj [] else .str s
      | some (.arr (x :: rest)) => .arr (x :: rest)
      | some (.obj (p :: rest)) => .obj (p :: rest)
      | _ => .obj [] := by
  cases body with
  | none => rfl
  | some b =>
    cases b with
    | null => rfl
    | bool b => cases b <;> rfl
    | num m e =>
      by_cases hm : m = 0
      · simp [forwardedBody, JSON.truthy, JSON.keyCount, hm]
      · simp [forwardedBody, JSON.truthy, JSON.keyCount, hm]
    | str s =>
      by_cases hs : s = ""
      · subst hs
        rfl
      · have hlen : jsLength s ≠ 0 := fun h => hs ((jsLength_eq_zero_iff s).mp h)
        simp [forwardedBody, JSON.truthy, JSON.keyCount, truthyStr, hs, hlen]
    | arr items => cases items <;> simp [forwardedBody, JSON.truthy, JSON.keyCount]
    | obj props => cases props <;> simp [forwardedBody, JSON.truthy, JSON.keyCount]

/-- C6, as stated, fails: a `POST` whose JSON body is the number `5` is forwarded with
the body `{}`. -/
theorem number_body_forwarded_as_empty_object :
    (handler none (fun _ => .replied 200 none "ok") ⟨"POST", some (.num 5 0)⟩).2.map
        FetchCall.body = [JSON.obj []] ∧
    JSON.obj [] ≠ JSON.num 5 0 :=
  ⟨rfl, fun h => by cases h⟩

/-- C6, amended: a `POST` makes exactly one upstream call, to the configured URL, with
method `POST` and header `content-type: application/json`; its body is the inbound
JSON body when that is a non-empty string, a non-empty array or an object with at
least one property, and the empty object in every other case (no body, `null`, a
number, a boolean, an empty string, array or object). -/
theorem post_forwards_body_with_keys (env : Option String) (fetch : FetchCall → Upstream)
    (body : Option JSON) :
    (handler env fetch ⟨"POST", body⟩).2 =
      [{ url := TARGET env
         method := "POST"
         headers := [("content-type", "application/json")]
         body :=
          match body with
          | some (.str s) => if s = "" then .obj [] else .str s
          | some (.arr (x :: rest)) => .arr (x :: rest)
          | some (.obj (p :: rest)) => .obj (p :: rest)
          | _ => .obj [] }] := by
  rw [← forwardedBody_cases]
  have h1 : ("POST" == "OPTIONS") = false := by decide
  have h2 : ("POST" != "POST") = false := by decide
  simp only [handler, h1, h2, Bool.false_eq_true, if_false]
  split
  · rfl
  · rfl
  · split <;> rfl

theorem orDefault_eq_filter_getD (x : Option String) (d : String) :
    orDefault x d = (x.filter (fun c => decide (c ≠ ""))).getD d := by
  cases x with
  | none => rfl
  | some c =>
    by_cases hc : c = ""
    · subst hc
      rfl
    · simp [orDefault, truthyStr, Option.filter, hc]

theorem orDefault_ne_empty (x : Option String) (d : String) (hd : d ≠ "") :
    orDefault x d ≠ "" := by
  cases x with
  | none => exact hd
  | some c =>
    by_cases hc : c = ""
    · subst hc
      exact hd
    · simp [orDefault, truthyStr, hc]

theorem upstreamError_after_send_raised (res : Res) (c : String) (err e : JSError)
    (hget : res.getHeader "content-type" = some c) (hc : c ≠ "")
    (hraise : setCharset c "utf-8" = .error e) :
    (upstreamError res err).body = Body.aborted := by
  have ht : truthyStr c = true := by simpa [truthyStr] using hc
  have hget' : (res.status 502).getHeader "content-type" = some c := hget
  unfold upstreamError
  simp only [Res.json, hget', ht, if_true, sendChunk_of_contentType _ _ c hget' hc, hraise]
  rfl

/-- C7, as stated, fails: an upstream reply `200` with `content-type: application/json`
is relayed with `content-type: application/json; charset=utf-8`. -/
theorem content_type_gains_charset :
    (handler none (fun _ => .replied 200 (some "application/json") "ok") ⟨"POST", none⟩).1.getHeader
        "content-type" = some "application/json; charset=utf-8" ∧
    some "application/json; charset=utf-8" ≠ some "application/json" := by
  decide

/-- C7, amended: let `c` be the upstream `content-type` when it is present and
non-empty, and `application/json` otherwise.  When the upstream call of a `POST`
completes with status `status` and body text `text`, and `c` is a media type that the
runtime can re-serialise with `charset=utf-8`, the response has status `status`; for a
status other than 204 and 304 its body is `text` and its `content-type` is the
re-serialised `c`; for 204 and 304 it has no `content-type` and an empty body.  When
`c` is not such a media type, no response is sent. -/
theorem post_mirrors_upstream_reply (env : Option String) (fetch : FetchCall → Upstream)
    (req : Req) (status : Nat) (contentType : Option String) (text : String)
    (hm : req.method = "POST")
    (hf : fetch { url := TARGET env, method := "POST",
                  headers := [("content-type", "application/json")],
                  body := forwardedBody req.body } = .replied status contentType text) :
    match setCharset
        ((contentType.filter (fun c => decide (c ≠ ""))).getD "application/json") "utf-8" with
    | .ok served =>
      (handler env fetch req).1.statusCode = status ∧
      if status = 204 ∨ status = 304 then
        (handler env fetch req).1.getHeader "content-type" = none ∧
        (handler env fetch req).1.body = .text ""
      else
        (handler env fetch req).1.getHeader "content-type" = some served ∧
        (handler env fetch req).1.body = .text text
    | .error _ => (handler env fetch req).1.body = .aborted := by
  have h1 : ("POST" == "OPTIONS") = false := by decide
  have h2 : ("POST" != "POST") = false := by decide
  have hres : (handler env fetch req).1 =
      (match (((setCors Res.fresh).status status).setHeader "content-type"
          (orDefault contentType "application/json")).send text with
        | .ok done => done
        | .error err =>
          upstreamError (((setCors Res.fresh).status status).setHeader "content-type"
            (orDefault contentType "application/json")) err) := by
    simp only [handler, hm, h1, h2, Bool.false_eq_true, if_false, hf]
    split <;> rfl
  rw [hres, ← orDefault_eq_filter_getD, Res.send]
  have hne := orDefault_ne_empty contentType "application/json" (by decide)
  generalize orDefault contentType "application/json" = c at hne
  have hget : (((setCors Res.fresh).status status).setHeader "content-type" c).getHeader
      "content-type" = some c := getHeader_setHeader_self _ _ _
  rw [sendChunk_of_contentType _ _ c hget hne]
  cases hs : setCharset c "utf-8" with
  | error e =>
    exact upstreamError_after_send_raised _ c e e hget hne hs
  | ok served =>
    have hstat : (((setCors Res.fresh).status status).setHeader "content-type" c).statusCode
        = status := rfl
    simp only [hstat]
    by_cases h204 : status = 204 ∨ status = 304
    · have hb : (status == 204 || status == 304) = true := by
        rcases h204 with h | h <;> simp [h]
      simp only [hb, if_true, h204]
      exact ⟨rfl, getHeader_removeHeader_self _ _, trivial⟩
    · have hb : (status == 204 || status == 304) = false := by
        simpa using h204
      simp only [hb, h204, if_false, Bool.false_eq_true]
      exact ⟨rfl, getHeader_setHeader_self _ _ _, trivial⟩

/-- C7 amended, on an upstream reply `503` with body `{"x":1}` and no `content-type`,
on a reply `204` with `content-type: text/plain`, and on a reply `200` whose
`content-type` is the word `json`, which is not a media type. -/
theorem post_mirrors_upstream_reply_witness :
    ((handler none (fun _ => .replied 503 none "\x7b\"x\":1\x7d") ⟨"POST", none⟩).1.statusCode = 503 ∧
     (handler none (fun _ => .replied 503 none "\x7b\"x\":1\x7d") ⟨"POST", none⟩).1.getHeader
        "content-type" = some "application/json; charset=utf-8" ∧
     (handler none (fun _ => .replied 503 none "\x7b\"x\":1\x7d") ⟨"POST", none⟩).1.body
        = .text "\x7b\"x\":1\x7d") ∧
    ((handler none (fun _ => .replied 204 (some "text/plain") "") ⟨"POST", none⟩).1.statusCode
        = 204 ∧
     (handler none (fun _ => .replied 204 (some "text/plain") "") ⟨"POST", none⟩).1.getHeader
        "content-type" = none ∧
     (handler none (fun _ => .replied 204 (some "text/plain") "") ⟨"POST", none⟩).1.body
        = .text "") ∧
    (handler none (fun _ => .replied 200 (some "json") "ok") ⟨"POST", none⟩).1.body = .aborted :=
  ⟨post_mirrors_upstream_reply none (fun _ => .replied 503 none "\x7b\"x\":1\x7d") ⟨"POST", none⟩
      503 none "\x7b\"x\":1\x7d" rfl rfl,
   post_mirrors_upstream_reply none (fun _ => .replied 204 (some "text/plain") "") ⟨"POST", none⟩
      204 (some "text/plain") "" rfl rfl,
   post_mirrors_upstream_reply none (fun _ => .replied 200 (some "json") "ok") ⟨"POST", none⟩
      200 (some "json") "ok" rfl rfl⟩

/-- C9, as stated, fails: when `fetch` raises an error whose name and message are both
empty, the `502` body carries the empty string as `message`. -/
theorem nameless_error_gives_empty_message :
    (handler none (fun _ => .fetchThrows ⟨"", ""⟩) ⟨"POST", none⟩).1.statusCode = 502 ∧
    ∃ m : String, m = "" ∧
      (handler none (fun _ => .fetchThrows ⟨"", ""⟩) ⟨"POST", none⟩).1.body =
        .json (.obj [("error", .str "Upstream error"), ("message", .str m)]) :=
  ⟨rfl, "", rfl, rfl⟩

theorem errorText_eq (err : JSError) :
    errorText err = if err.message = "" then err.name else err.message := by
  by_cases hmsg : err.message = ""
  · by_cases hname : err.name = ""
    · simp [errorText, orDefault, truthyStr, JSError.toString, hmsg, hname]
    · simp [errorText, orDefault, truthyStr, JSError.toString, hmsg, hname]
  · simp [errorText, orDefault, truthyStr, hmsg]

/-- C9, amended: when `fetch` or the reading of the upstream body raises an error, a
`POST` is answered with status `502` and the JSON body
`{"error": "Upstream error", "message": m}`, where `m` is the message of the error,
or its name when the message is empty; `m` is empty exactly when the error has an
empty name and an empty message. -/
theorem upstream_failure_gives_502 (env : Option String) (fetch : FetchCall → Upstream)
    (req : Req) (err : JSError)
    (hm : req.method = "POST")
    (hf : fetch { url := TARGET env, method := "POST",
                  headers := [("content-type", "application/json")],
                  body := forwardedBody req.body } = .fetchThrows err ∨
          ∃ status contentType,
            fetch { url := TARGET env, method := "POST",
                    headers := [("content-type", "application/json")],
                    body := forwardedBody req.body } = .textThrows status contentType err) :
    (handler env fetch req).1.statusCode = 502 ∧
    (handler env fetch req).1.body =
      .json (.obj [("error", .str "Upstream error"),
        ("message", .str (if err.message = "" then err.name else err.message))]) ∧
    ((if err.message = "" then err.name else err.message) = "" ↔
      err.name = "" ∧ err.message = "") := by
  have h1 : ("POST" == "OPTIONS") = false := by decide
  have h2 : ("POST" != "POST") = false := by decide
  have hres : (handler env fetch req).1 = upstreamError (setCors Res.fresh) err := by
    rcases hf with hf | ⟨status, contentType, hf⟩ <;>
      simp only [handler, hm, h1, h2, Bool.false_eq_true, if_false, hf]
  rw [hres, ← errorText_eq]
  refine ⟨rfl, rfl, ?_⟩
  rw [errorText_eq]
  by_cases hmsg : err.message = ""
  · simp [hmsg]
  · simp [hmsg]

/-- C9 amended, on `fetch` raising `TypeError: fetch failed`. -/
theorem upstream_failure_gives_502_witness :
    (handler none (fun _ => .fetchThrows ⟨"TypeError", "fetch failed"⟩)
      ⟨"POST", some (.obj [("message", .str "hi")])⟩).1.statusCode = 502 ∧
    (handler none (fun _ => .fetchThrows ⟨"TypeError", "fetch failed"⟩)
      ⟨"POST", some (.obj [("message", .str "hi")])⟩).1.body =
        .json (.obj [("error", .str "Upstream error"), ("message", .str "fetch failed")]) :=
  ⟨(upstream_failure_gives_502 none (fun _ => .fetchThrows ⟨"TypeError", "fetch failed"⟩)
      ⟨"POST", some (.obj [("message", .str "hi")])⟩ ⟨"TypeError", "fetch failed"⟩ rfl
      (Or.inl rfl)).1,
   (upstream_failure_gives_502 none (fun _ => .fetchThrows ⟨"TypeError", "fetch failed"⟩)
      ⟨"POST", some (.obj [("message", .str "hi")])⟩ ⟨"TypeError", "fetch failed"⟩ rfl
      (Or.inl rfl)).2.1⟩

/-- C8: whatever the method of the request and the outcome of the upstream call, the
response carries `Access-Control-Allow-Origin: *`,
`Access-Control-Allow-Headers: content-type` and
`Access-Control-Allow-Methods: POST, OPTIONS`. -/
theorem every_response_has_cors (env : Option String) (fetch : FetchCall → Upstream)
    (req : Req) :
    (handler env fetch req).1.getHeader "Access-Control-Allow-Origin" = some "*" ∧
    (handler env fetch req).1.getHeader "Access-Control-Allow-Headers" = some "content-type" ∧
    (handler env fetch req).1.getHeader "Access-Control-Allow-Methods" = some "POST, OPTIONS" := by
  refine ⟨?_, ?_, ?_⟩
  · rw [handler_getHeader env fetch req _ (by decide)]
    rfl
  · rw [handler_getHeader env fetch req _ (by decide)]
    rfl
  · rw [handler_getHeader env fetch req _ (by decide)]
    rfl

end N8nUi
